import Mathlib

/-!
Kissing numbers: table, renderers and session handlers of main.go.

A shallow embedding of `src/main.go`.

* Go `*int` fields are `Option Int` (`nil` is `none`).
* The map `kissingTable` is an association list; reading an absent key yields
  the zero value of `KissingData`, as a Go map read does.
* `out.SetText(s)` is modelled by the text `s` itself; a nil-pointer
  dereference (a run-time panic) is `none`.
* The closure variables `mode` and `currentN` of `main`, the text of the
  output view and the stop flag of the application form the record `Session`;
  the two event handlers are functions from sessions to sessions.
* The float64 results of `asymptoticBounds` are kept by their exponent
  (`F64Pow`), with the overflow of `math.Pow` to +Inf; the text the verb
  `%.3e` prints for them is not computed and is taken from a `FloatText`.
-/

set_option maxRecDepth 8000

namespace KissingNumbers

/-! ## Data model -/

/-- KissingData of main.go; an absent field has the Go zero value. -/
structure KissingData where
  Exact : Option Int := none
  Lower : Option Int := none
  Upper : Option Int := none
  Root : String := ""
  Diagram : String := ""
deriving DecidableEq

/-- The literal map kissingTable, in source order. -/
def kissingTable : List (Int × KissingData) :=
  [ (1, { Exact := some 2, Root := "A1", Diagram := "o\n" }),
    (2, { Exact := some 6, Root := "A2", Diagram := "o---o\n" }),
    (3, { Exact := some 12, Root := "A3", Diagram := "o---o---o\n" }),
    (4, { Exact := some 24, Root := "D4",
          Diagram := "\n    o\n    |\no---o---o\n" }),
    (5, { Lower := some 40, Upper := some 44 }),
    (6, { Lower := some 72, Upper := some 78 }),
    (7, { Lower := some 126, Upper := some 134 }),
    (8, { Exact := some 240, Root := "E8",
          Diagram := "\no---o---o---o---o---o---o\n                |\n                o\n" }),
    (24, { Exact := some 196560, Root := "Leech lattice",
           Diagram := "(No Coxeter diagram exists)\n" }) ]

/-- The keys of kissingTable. -/
def tableKeys : List Int := kissingTable.map Prod.fst

/-- The two-result map read: the stored entry, or none for an absent key. -/
def lookup (n : Int) : Option KissingData := kissingTable.lookup n

/-- The map read `kissingTable[n]`: the zero value for an absent key. -/
def tableGet (n : Int) : KissingData := (lookup n).getD {}

/-! ## Formatting -/

/-- The verb %d of fmt.Sprintf on an int: decimal digits, a minus sign when negative. -/
def fmtD (i : Int) : String :=
  if i < 0 then "-" ++ Nat.repr i.natAbs else Nat.repr i.natAbs

/-- Text of the first branch of renderExact (an exact value is stored). -/
def exactText (n e : Int) (root diagram : String) : String :=
  "[green]Dimension:[white] " ++ fmtD n ++ "\n" ++
  "[green]Exact Kissing Number:[white] " ++ fmtD e ++ "\n" ++
  "[green]Root System:[white] " ++ root ++ "\n\n" ++
  "[green]Coxeter Diagram:\n[white]" ++ diagram

/-- Text of the second branch of renderExact (a bound pair is stored). -/
def boundedText (n lo hi : Int) : String :=
  "[yellow]Dimension " ++ fmtD n ++ " (Unproven)\n\n" ++
  "[green]Lower Bound:[white] " ++ fmtD lo ++ "\n" ++
  "[red]Upper Bound:[white] " ++ fmtD hi ++ "\n\n" ++
  "[yellow]Exact kissing number not known."

/-- Text of the last branch of renderExact (nothing is stored). -/
def noDataText (n : Int) : String :=
  "[yellow]Dimension " ++ fmtD n ++ "\nNo finite bounds stored."

/-- The text the submit handler shows for a rejected input. -/
def invalidText : String := "[red]Invalid dimension"

/-! ## Renderers -/

/-- The function renderExact: the text passed to out.SetText, or none when the
second branch dereferences a nil Upper. -/
def renderExact (n : Int) : Option String :=
  let data := tableGet n
  match data.Exact with
  | some e => some (exactText n e data.Root data.Diagram)
  | none =>
    match data.Lower with
    | some lo =>
      match data.Upper with
      | some hi => some (boundedText n lo hi)
      | none => none
    | none => some (noDataText n)

/-- A float64 result of math.Pow(2, y) for an exponent y = k/10000, kept by
that exponent: zero when the power is below the float64 range, posInf when it
is above it, and otherwise pow k, the finite non-zero float64 returned for
2^(k/10000). -/
inductive F64Pow where
  | zero
  | pow (k : Int)
  | posInf
deriving DecidableEq

/-- The call math.Pow(2, y) at y = k/10000 in float64: +Inf from y = 1024 on
(the largest float64 is below 2^1024), 0 up to y = -1075 (the smallest is
2^(-1074)). The exponents the program forms, 0.2075*n and 0.401*n for an
integer n, stay at least 0.01 away from both thresholds (the nearest is
0.2075*4935 = 1024.0125), far more than the rounding of the product. -/
def pow2 (k : Int) : F64Pow :=
  if 10240000 ≤ k then F64Pow.posInf
  else if k ≤ -10750000 then F64Pow.zero
  else F64Pow.pow k

/-- The function asymptoticBounds: math.Pow(2, 0.2075*float64(n)) and
math.Pow(2, 0.401*float64(n)), the exponents in units of 1/10000. -/
def asymptoticBounds (n : Int) : F64Pow × F64Pow :=
  (pow2 (2075 * n), pow2 (4010 * n))

/-- The two numbers of asymptoticBounds as printed by the verb %.3e:
lower is the text of math.Pow(2, 0.2075*float64(n)), upper the text of
math.Pow(2, 0.401*float64(n)). -/
structure FloatText where
  lower : Int → String
  upper : Int → String

/-- The function renderAsymptotic: the text passed to out.SetText. -/
def renderAsymptotic (ft : FloatText) (n : Int) : String :=
  "[cyan]Asymptotic Bounds (Kabatiansky–Levenshtein)\n\n" ++
  "[green]Lower Bound:[white] " ++ ft.lower n ++ "\n" ++
  "[red]Upper Bound:[white] " ++ ft.upper n ++ "\n\n" ++
  "[yellow]These bounds hold for sufficiently large dimensions."

/-! ## Parsing of the submitted text -/

/-- Value of an ASCII decimal digit, none for any other character. -/
def digitVal (c : Char) : Option Nat :=
  if '0' ≤ c ∧ c ≤ '9' then some (c.toNat - '0'.toNat) else none

/-- Accumulate decimal digits; none at the first character that is not a digit. -/
def parseDigits : List Char → Nat → Option Nat
  | [], acc => some acc
  | c :: cs, acc =>
    match digitVal c with
    | none => none
    | some d => parseDigits cs (acc * 10 + d)

/-- The library function strconv.Atoi for a 64-bit int: an optional sign, then
one or more decimal digits, the value within the int64 range; none stands for
a non-nil error. -/
def atoi (s : String) : Option Int :=
  match s.data with
  | [] => none
  | c :: cs =>
    let body := if c = '-' ∨ c = '+' then cs else c :: cs
    if body = [] then none
    else
      match parseDigits body 0 with
      | none => none
      | some un =>
        if c = '-' then
          if un > 2 ^ 63 then none else some (-(un : Int))
        else
          if un ≥ 2 ^ 63 then none else some (un : Int)

/-! ## Session and event handlers -/

/-- The mutable state of main: the variables mode and currentN, the text of
the output view, and whether app.Stop was called. -/
structure Session where
  mode : String
  currentN : Int
  output : String
  stopped : Bool
deriving DecidableEq

/-- The state when the event loop starts. -/
def initSession : Session :=
  { mode := "exact", currentN := 0, output := "", stopped := false }

/-- The closure update of main; none when the renderer panics. -/
def update (ft : FloatText) (st : Session) : Option Session :=
  if st.mode = "exact" then
    (renderExact st.currentN).map (fun t => { st with output := t })
  else
    some { st with output := renderAsymptotic ft st.currentN }

/-- Keys with which the input field reports that editing is done. -/
inductive Key where
  | Enter
  | Tab
  | Backtab
  | Escape
deriving DecidableEq

/-- The handler given to input.SetDoneFunc; text is input.GetText(). -/
def inputDone (ft : FloatText) (key : Key) (text : String) (st : Session) :
    Option Session :=
  if key ≠ Key.Enter then some st
  else
    match atoi text with
    | none => some { st with output := invalidText }
    | some n =>
      if n < 1 then some { st with output := invalidText }
      else update ft { st with currentN := n }

/-- The handler given to app.SetInputCapture; r is ev.Rune(). -/
def inputCapture (ft : FloatText) (r : Char) (st : Session) : Option Session :=
  if r = 'q' ∨ r = 'Q' then some { st with stopped := true }
  else if r = 'e' ∨ r = 'E' then update ft { st with mode := "exact" }
  else if r = 'a' ∨ r = 'A' then update ft { st with mode := "asymptotic" }
  else some st

/-- An event delivered by the event loop: the input field reports done with a
key and its current text, or a key press with rune r reaches the capture. -/
inductive Event where
  | done (key : Key) (text : String)
  | rune (r : Char)

/-- One event handled by the handler registered for it. -/
def step (ft : FloatText) (ev : Event) (st : Session) : Option Session :=
  match ev with
  | Event.done key text => inputDone ft key text st
  | Event.rune r => inputCapture ft r st

/-- Events handled one at a time in arrival order; a panic ends the run. -/
def run (ft : FloatText) : List Event → Session → Option Session
  | [], st => some st
  | ev :: evs, st =>
    match step ft ev st with
    | none => none
    | some st1 => run ft evs st1

/-- Whether an event is a submission the submit handler accepts: the key
Enter with a text that parses to a value of at least 1. -/
def isValidSubmit (ev : Event) : Bool :=
  match ev with
  | Event.done Key.Enter text =>
    match atoi text with
    | some n => decide (1 ≤ n)
    | none => false
  | _ => false

/-- A sample FloatText for the examples at dimension 8, where 2^1.66 is about
3.160 and 2^3.208 about 9.241. -/
def ft8 : FloatText :=
  { lower := fun _ => "3.160e+00", upper := fun _ => "9.241e+00" }

/-! ## Decimal numerals -/

/-- The verb %d prints the decimal numeral of the integer. -/
theorem fmtD_eq_toString (d : Int) : fmtD d = toString d := by
  cases d with
  | ofNat m =>
    have h : ¬ (Int.ofNat m < 0) := by simp
    simp only [fmtD, h, if_false]
    rfl
  | negSucc m =>
    have h : Int.negSucc m < 0 := Int.negSucc_lt_zero m
    simp only [fmtD, h, if_true]
    rfl

/-! ## Table facts -/

/-- A key that no pair of an association list carries is not found in it. -/
theorem lookup_none_of_not_mem {β : Type} (k : Int) :
    ∀ l : List (Int × β), k ∉ l.map Prod.fst → l.lookup k = none
  | [], _ => rfl
  | (a, b) :: l, h => by
    have hk : k ≠ a := fun e => h (by simp [e])
    have hl : k ∉ l.map Prod.fst := fun m => h (by simp at m ⊢; exact Or.inr m)
    have hb : (k == a) = false := by simpa using hk
    simp only [List.lookup, hb]
    exact lookup_none_of_not_mem k l hl

/-- A key outside the table is absent from it. -/
theorem lookup_absent (d : Int) (h : d ∉ tableKeys) : lookup d = none :=
  lookup_none_of_not_mem d kissingTable h

/-- An absent key reads as the zero entry and renders the no-data text. -/
theorem renderExact_absent (d : Int) (h : d ∉ tableKeys) :
    renderExact d = some (noDataText d) := by
  simp [renderExact, tableGet, lookup_absent d h]

/-- The renderer returns a text at every key of the table. -/
theorem renderExact_keys : ∀ d ∈ tableKeys, (renderExact d).isSome = true := by
  decide

/-- The function renderExact returns a text for every integer. -/
theorem renderExact_total (n : Int) : ∃ t, renderExact n = some t := by
  by_cases h : n ∈ tableKeys
  · exact Option.isSome_iff_exists.mp (renderExact_keys n h)
  · exact ⟨_, renderExact_absent n h⟩


/-! ## Leading characters of the rendered texts -/

/-- The first two characters of a text. -/
theorem take_two_append (a b : String) (x y : Char) (l : List Char)
    (h : a.data = x :: y :: l) : (a ++ b).data.take 2 = [x, y] := by
  simp [String.data_append, h]

/-- Every exact-branch text starts with "[g". -/
theorem exactText_head (n e : Int) (root diagram : String) :
    (exactText n e root diagram).data.take 2 = ['[', 'g'] := by
  simp only [exactText, String.append_assoc]
  exact take_two_append _ _ '[' 'g' _ rfl

/-- Every bounded-branch text starts with "[y". -/
theorem boundedText_head (n lo hi : Int) :
    (boundedText n lo hi).data.take 2 = ['[', 'y'] := by
  simp only [boundedText, String.append_assoc]
  exact take_two_append _ _ '[' 'y' _ rfl

/-- Every no-data text starts with "[y". -/
theorem noDataText_head (n : Int) : (noDataText n).data.take 2 = ['[', 'y'] := by
  simp only [noDataText, String.append_assoc]
  exact take_two_append _ _ '[' 'y' _ rfl

/-- Every asymptotic text starts with "[c". -/
theorem renderAsymptotic_head (ft : FloatText) (n : Int) :
    (renderAsymptotic ft n).data.take 2 = ['[', 'c'] := by
  simp only [renderAsymptotic, String.append_assoc]
  exact take_two_append _ _ '[' 'c' _ rfl

/-- Every text of renderExact starts with "[g" or "[y". -/
theorem renderExact_head (n : Int) (t : String) (h : renderExact n = some t) :
    t.data.take 2 = ['[', 'g'] ∨ t.data.take 2 = ['[', 'y'] := by
  unfold renderExact at h
  simp only at h
  split at h
  · cases h; exact Or.inl (exactText_head _ _ _ _)
  · split at h
    · split at h
      · cases h; exact Or.inr (boundedText_head _ _ _)
      · cases h
    · cases h; exact Or.inr (noDataText_head _)


/-! ## Exact-mode reports -/

/-- C1: for each of the dimensions 1, 2, 3, 4, 8 and 24 the table stores an
exact value, renderExact returns the text of its first branch with the
published value (2, 6, 12, 24, 240, 196560), the root-system name and diagram
are non-empty for 1, 2, 3, 4 and 8, and the diagram text of 24 says that no
Coxeter diagram exists. -/
theorem C1_exact_reports :
    (∀ p ∈ [((1 : Int), (2 : Int)), (2, 6), (3, 12), (4, 24), (8, 240), (24, 196560)],
      (tableGet p.1).Exact = some p.2 ∧
      renderExact p.1 =
        some (exactText p.1 p.2 (tableGet p.1).Root (tableGet p.1).Diagram)) ∧
    (∀ d ∈ [(1 : Int), 2, 3, 4, 8],
      (tableGet d).Root ≠ "" ∧ (tableGet d).Diagram ≠ "") ∧
    (tableGet 24).Diagram = "(No Coxeter diagram exists)\n" ∧
    renderExact 1 = some "[green]Dimension:[white] 1\n[green]Exact Kissing Number:[white] 2\n[green]Root System:[white] A1\n\n[green]Coxeter Diagram:\n[white]o\n" ∧
    renderExact 2 = some "[green]Dimension:[white] 2\n[green]Exact Kissing Number:[white] 6\n[green]Root System:[white] A2\n\n[green]Coxeter Diagram:\n[white]o---o\n" ∧
    renderExact 3 = some "[green]Dimension:[white] 3\n[green]Exact Kissing Number:[white] 12\n[green]Root System:[white] A3\n\n[green]Coxeter Diagram:\n[white]o---o---o\n" ∧
    renderExact 4 = some "[green]Dimension:[white] 4\n[green]Exact Kissing Number:[white] 24\n[green]Root System:[white] D4\n\n[green]Coxeter Diagram:\n[white]\n    o\n    |\no---o---o\n" ∧
    renderExact 8 = some "[green]Dimension:[white] 8\n[green]Exact Kissing Number:[white] 240\n[green]Root System:[white] E8\n\n[green]Coxeter Diagram:\n[white]\no---o---o---o---o---o---o\n                |\n                o\n" ∧
    renderExact 24 = some "[green]Dimension:[white] 24\n[green]Exact Kissing Number:[white] 196560\n[green]Root System:[white] Leech lattice\n\n[green]Coxeter Diagram:\n[white](No Coxeter diagram exists)\n" := by
  refine ⟨by decide, by decide, rfl, rfl, rfl, rfl, rfl, rfl, rfl⟩

/-- C2: for each of the dimensions 5, 6 and 7 the table stores no exact value
but a bound pair, renderExact returns the text of its second branch with the
literal bounds (40 and 44, 72 and 78, 126 and 134), that text is neither the
no-data text nor any first-branch text, and the lower bound is at most the
upper bound. -/
theorem C2_bounded_reports :
    (∀ p ∈ [((5 : Int), (40 : Int), (44 : Int)), (6, 72, 78), (7, 126, 134)],
      (tableGet p.1).Exact = none ∧
      (tableGet p.1).Lower = some p.2.1 ∧
      (tableGet p.1).Upper = some p.2.2 ∧
      renderExact p.1 = some (boundedText p.1 p.2.1 p.2.2) ∧
      renderExact p.1 ≠ some (noDataText p.1) ∧
      p.2.1 ≤ p.2.2) ∧
    (∀ d ∈ [(5 : Int), 6, 7], ∀ (e : Int) (root diagram : String),
      renderExact d ≠ some (exactText d e root diagram)) ∧
    renderExact 5 = some "[yellow]Dimension 5 (Unproven)\n\n[green]Lower Bound:[white] 40\n[red]Upper Bound:[white] 44\n\n[yellow]Exact kissing number not known." ∧
    renderExact 6 = some "[yellow]Dimension 6 (Unproven)\n\n[green]Lower Bound:[white] 72\n[red]Upper Bound:[white] 78\n\n[yellow]Exact kissing number not known." ∧
    renderExact 7 = some "[yellow]Dimension 7 (Unproven)\n\n[green]Lower Bound:[white] 126\n[red]Upper Bound:[white] 134\n\n[yellow]Exact kissing number not known." := by
  refine ⟨by decide, ?_, rfl, rfl, rfl⟩
  intro d hd e root diagram h
  have hb : ∃ lo hi, renderExact d = some (boundedText d lo hi) := by
    simp only [List.mem_cons, List.mem_singleton, List.not_mem_nil, or_false] at hd
    rcases hd with rfl | rfl | rfl
    · exact ⟨40, 44, rfl⟩
    · exact ⟨72, 78, rfl⟩
    · exact ⟨126, 134, rfl⟩
  obtain ⟨lo, hi, hb⟩ := hb
  have he : boundedText d lo hi = exactText d e root diagram :=
    Option.some.inj (hb.symm.trans h)
  have h2 := congrArg (fun s : String => s.data.take 2) he
  simp only [boundedText_head, exactText_head] at h2
  exact absurd h2 (by decide)

/-- C3: the keys of the table are exactly 1, 2, 3, 4, 5, 6, 7, 8 and 24; for
every integer d outside them the lookup is absent and renderExact returns the
no-data report carrying d, the text "[yellow]Dimension ", the decimal numeral
of d, a line break and "No finite bounds stored." (so for d = 9); for every d
among them the lookup finds an entry and renderExact does not return that
text. -/
theorem C3_key_set :
    tableKeys = [1, 2, 3, 4, 5, 6, 7, 8, 24] ∧
    (∀ d : Int, d ∉ tableKeys →
      lookup d = none ∧
      renderExact d =
        some ("[yellow]Dimension " ++ toString d ++ "\nNo finite bounds stored.")) ∧
    (∀ d ∈ tableKeys,
      (lookup d).isSome = true ∧
      renderExact d ≠
        some ("[yellow]Dimension " ++ toString d ++ "\nNo finite bounds stored.")) ∧
    lookup 9 = none ∧
    renderExact 9 = some "[yellow]Dimension 9\nNo finite bounds stored." ∧
    renderExact 10 = some "[yellow]Dimension 10\nNo finite bounds stored." ∧
    renderExact 23 = some "[yellow]Dimension 23\nNo finite bounds stored." ∧
    renderExact 25 = some "[yellow]Dimension 25\nNo finite bounds stored." ∧
    renderExact 4935 = some "[yellow]Dimension 4935\nNo finite bounds stored." := by
  refine ⟨rfl, ?_, by decide, rfl, rfl, rfl, rfl, rfl, rfl⟩
  intro d hd
  refine ⟨lookup_absent d hd, ?_⟩
  rw [renderExact_absent d hd, noDataText, fmtD_eq_toString]

/-- C10: renderExact returns a text for every integer, so the dereference of
Upper in its second branch never meets nil: whenever the entry read has no
Exact but a Lower it has an Upper; every entry of the table has Lower exactly
when it has Upper and has exactly one of Exact and the bound pair; an absent
key reads as the zero entry with all three pointers nil. -/
theorem C10_no_nil_dereference :
    (∀ n : Int, (renderExact n).isSome = true) ∧
    (∀ n : Int, (tableGet n).Exact = none → (tableGet n).Lower ≠ none →
      (tableGet n).Upper ≠ none) ∧
    (∀ p ∈ kissingTable,
      (p.2.Lower.isSome = p.2.Upper.isSome) ∧
      (p.2.Exact.isSome = !p.2.Lower.isSome)) ∧
    (∀ n : Int, n ∉ tableKeys →
      tableGet n = { Exact := none, Lower := none, Upper := none, Root := "", Diagram := "" }) := by
  have hz : ∀ n : Int, n ∉ tableKeys → tableGet n = {} := by
    intro n hn
    simp [tableGet, lookup_absent n hn]
  have hk : ∀ n ∈ tableKeys, (tableGet n).Exact = none → (tableGet n).Lower ≠ none →
      (tableGet n).Upper ≠ none := by decide
  refine ⟨?_, ?_, by decide, hz⟩
  · intro n
    obtain ⟨t, ht⟩ := renderExact_total n
    simp [ht]
  · intro n
    by_cases hn : n ∈ tableKeys
    · exact hk n hn
    · intro _ hl
      rw [hz n hn] at hl
      exact absurd rfl hl


/-! ## Asymptotic bounds -/

/-- C7 fails on the code for large dimensions: at n = 4935 both results of
asymptoticBounds are +Inf, so the lower bound equals the upper bound instead
of lying strictly below it, and so for every n from 4935 on; the upper bound
alone is +Inf from n = 2554. For 1 ≤ n ≤ 2553 both results are finite powers
of two with the exponents 0.2075·n < 0.401·n. -/
theorem C7_asymptotic_overflow :
    asymptoticBounds 4935 = (F64Pow.posInf, F64Pow.posInf) ∧
    (asymptoticBounds 4935).1 = (asymptoticBounds 4935).2 ∧
    asymptoticBounds 4934 = (F64Pow.pow 10238050, F64Pow.posInf) ∧
    asymptoticBounds 2554 = (F64Pow.pow 5299550, F64Pow.posInf) ∧
    asymptoticBounds 2553 = (F64Pow.pow 5297475, F64Pow.pow 10237530) ∧
    (∀ n : Int, 4935 ≤ n →
      asymptoticBounds n = (F64Pow.posInf, F64Pow.posInf)) ∧
    (∀ n : Int, 1 ≤ n → n ≤ 2553 →
      asymptoticBounds n = (F64Pow.pow (2075 * n), F64Pow.pow (4010 * n)) ∧
      2075 * n < 4010 * n) := by
  refine ⟨by decide, by decide, by decide, by decide, by decide, ?_, ?_⟩
  · intro n hn
    have h1 : (10240000 : Int) ≤ 2075 * n := by omega
    have h2 : (10240000 : Int) ≤ 4010 * n := by omega
    simp [asymptoticBounds, pow2, h1, h2]
  · intro n h1 h2
    have a1 : ¬ (10240000 : Int) ≤ 2075 * n := by omega
    have a2 : ¬ (10240000 : Int) ≤ 4010 * n := by omega
    have a3 : ¬ 2075 * n ≤ (-10750000 : Int) := by omega
    have a4 : ¬ 4010 * n ≤ (-10750000 : Int) := by omega
    exact ⟨by simp [asymptoticBounds, pow2, a1, a2, a3, a4], by omega⟩

/-! ## Session handlers -/

/-- The closure update returns a session for every state, with the text of the
renderer the mode selects. -/
theorem update_eq (ft : FloatText) (st : Session) :
    ∃ t, renderExact st.currentN = some t ∧
      update ft st =
        some { st with
          output := if st.mode = "exact" then t else renderAsymptotic ft st.currentN } := by
  obtain ⟨t, ht⟩ := renderExact_total st.currentN
  refine ⟨t, ht, ?_⟩
  unfold update
  by_cases hm : st.mode = "exact"
  · simp [hm, ht]
  · simp [hm]

/-- A mode key sets the mode and renders the current dimension. -/
theorem inputCapture_mode (ft : FloatText) (r : Char) (st : Session)
    (hr : r ∈ ['e', 'E', 'a', 'A']) :
    ∃ t, renderExact st.currentN = some t ∧
      inputCapture ft r st =
        some { mode := if r = 'e' ∨ r = 'E' then "exact" else "asymptotic",
               currentN := st.currentN,
               output := if r = 'e' ∨ r = 'E' then t
                         else renderAsymptotic ft st.currentN,
               stopped := st.stopped } := by
  obtain ⟨t, ht⟩ := renderExact_total st.currentN
  refine ⟨t, ht, ?_⟩
  simp only [List.mem_cons, List.mem_singleton, List.not_mem_nil, or_false] at hr
  rcases hr with rfl | rfl | rfl | rfl <;>
    simp [inputCapture, update, ht]

/-- A rejected submission shows the invalid text and changes nothing else. -/
theorem inputDone_invalid (ft : FloatText) (text : String) (st : Session)
    (h : atoi text = none ∨ ∃ d, atoi text = some d ∧ d < 1) :
    inputDone ft Key.Enter text st =
      some { mode := st.mode, currentN := st.currentN,
             output := "[red]Invalid dimension", stopped := st.stopped } := by
  rcases h with h | ⟨d, h, hd⟩
  · simp [inputDone, h, invalidText]
  · simp [inputDone, h, hd, invalidText]

/-- An accepted submission stores the dimension and renders it in the current mode. -/
theorem inputDone_valid (ft : FloatText) (text : String) (n : Int) (st : Session)
    (hp : atoi text = some n) (hn : 1 ≤ n) :
    ∃ t, renderExact n = some t ∧
      inputDone ft Key.Enter text st =
        some { mode := st.mode, currentN := n,
               output := if st.mode = "exact" then t else renderAsymptotic ft n,
               stopped := st.stopped } := by
  obtain ⟨t, ht, hu⟩ := update_eq ft { st with currentN := n }
  refine ⟨t, ht, ?_⟩
  have hlt : ¬ n < 1 := by omega
  simp only [inputDone, hp, hlt]
  simpa using hu

/-- An event that is not an accepted submission is handled without a panic and
leaves currentN as it was. -/
theorem step_keeps_currentN (ft : FloatText) (ev : Event) (st : Session)
    (h : isValidSubmit ev = false) :
    ∃ st1, step ft ev st = some st1 ∧ st1.currentN = st.currentN := by
  cases ev with
  | done key text =>
    cases key with
    | Enter =>
      have hinv : atoi text = none ∨ ∃ d, atoi text = some d ∧ d < 1 := by
        cases ha : atoi text with
        | none => exact Or.inl rfl
        | some d =>
          refine Or.inr ⟨d, rfl, ?_⟩
          simp [isValidSubmit, ha] at h
          omega
      exact ⟨_, inputDone_invalid ft text st hinv, rfl⟩
    | Tab => exact ⟨st, by simp [step, inputDone], rfl⟩
    | Backtab => exact ⟨st, by simp [step, inputDone], rfl⟩
    | Escape => exact ⟨st, by simp [step, inputDone], rfl⟩
  | rune r =>
    simp only [step, inputCapture]
    split
    · exact ⟨_, rfl, rfl⟩
    · split
      · obtain ⟨t, _, hu⟩ := update_eq ft { st with mode := "exact" }
        exact ⟨_, hu, rfl⟩
      · split
        · obtain ⟨t, _, hu⟩ := update_eq ft { st with mode := "asymptotic" }
          exact ⟨_, hu, rfl⟩
        · exact ⟨st, rfl, rfl⟩

/-- A run of events none of which is an accepted submission ends without a
panic and leaves currentN as it was. -/
theorem run_keeps_currentN (ft : FloatText) :
    ∀ (evs : List Event) (st : Session), (∀ ev ∈ evs, isValidSubmit ev = false) →
      ∃ st1, run ft evs st = some st1 ∧ st1.currentN = st.currentN
  | [], st, _ => ⟨st, rfl, rfl⟩
  | ev :: evs, st, h => by
    obtain ⟨st1, h1, hn1⟩ := step_keeps_currentN ft ev st (h ev (by simp))
    obtain ⟨st2, h2, hn2⟩ :=
      run_keeps_currentN ft evs st1 (fun e he => h e (by simp [he]))
    exact ⟨st2, by simp [run, h1, h2], hn2.trans hn1⟩

/-- The invalid text is no text of renderExact. -/
theorem renderExact_ne_invalid (n : Int) : renderExact n ≠ some "[red]Invalid dimension" := by
  intro h
  rcases renderExact_head n _ h with h2 | h2 <;> exact absurd h2 (by decide)

/-- The invalid text is no text of renderAsymptotic. -/
theorem renderAsymptotic_ne_invalid (ft : FloatText) (n : Int) :
    renderAsymptotic ft n ≠ "[red]Invalid dimension" := by
  intro h
  have h2 := renderAsymptotic_head ft n
  rw [h] at h2
  exact absurd h2 (by decide)

/-! ## Submission -/

/-- C4: when the submitted text does not parse, or parses to a value d ≤ 0,
the submit handler shows the text Invalid dimension and changes nothing else:
currentN and mode keep their values. -/
theorem C4_invalid_submission (ft : FloatText) (text : String) (st : Session)
    (h : atoi text = none ∨ ∃ d, atoi text = some d ∧ d ≤ 0) :
    inputDone ft Key.Enter text st =
      some { mode := st.mode, currentN := st.currentN,
             output := "[red]Invalid dimension", stopped := st.stopped } := by
  apply inputDone_invalid
  rcases h with h | ⟨d, h, hd⟩
  · exact Or.inl h
  · exact Or.inr ⟨d, h, by omega⟩

/-- C4 at the texts "0", "-3", "abc", the empty text and a number beyond the
int64 range, in a session showing dimension 8 in asymptotic mode. -/
theorem C4_invalid_submission_witness :
    atoi "0" = some 0 ∧ atoi "-3" = some (-3) ∧ atoi "abc" = none ∧
    atoi "" = none ∧ atoi "9223372036854775808" = none ∧
    ∀ text ∈ ["0", "-3", "abc", "", "9223372036854775808"],
      inputDone ft8 Key.Enter text
          { mode := "asymptotic", currentN := 8, output := "shown", stopped := false } =
        some { mode := "asymptotic", currentN := 8,
               output := "[red]Invalid dimension", stopped := false } := by
  refine ⟨by decide, by decide, by decide, by decide, by decide, ?_⟩
  intro text ht
  apply C4_invalid_submission
  simp only [List.mem_cons, List.mem_singleton, List.not_mem_nil, or_false] at ht
  rcases ht with rfl | rfl | rfl | rfl | rfl
  · exact Or.inr ⟨0, by decide, by decide⟩
  · exact Or.inr ⟨-3, by decide, by decide⟩
  · exact Or.inl (by decide)
  · exact Or.inl (by decide)
  · exact Or.inl (by decide)

/-- C5: when the submitted text parses to n ≥ 1, the submit handler sets
currentN to n, keeps the mode, and shows the text of renderExact for n when
the mode is exact and the text of renderAsymptotic for n otherwise. -/
theorem C5_valid_submission (ft : FloatText) (text : String) (n : Int) (st : Session)
    (hp : atoi text = some n) (hn : 1 ≤ n) :
    ∃ t, renderExact n = some t ∧
      inputDone ft Key.Enter text st =
        some { mode := st.mode, currentN := n,
               output := if st.mode = "exact" then t else renderAsymptotic ft n,
               stopped := st.stopped } :=
  inputDone_valid ft text n st hp hn

/-- C5 at the text "8": from the initial session (mode exact) the exact report
with 240 is shown, and from a session in asymptotic mode the asymptotic report
for 8. -/
theorem C5_valid_submission_witness :
    atoi "8" = some 8 ∧
    inputDone ft8 Key.Enter "8" initSession =
      some { mode := "exact", currentN := 8,
             output := "[green]Dimension:[white] 8\n[green]Exact Kissing Number:[white] 240\n[green]Root System:[white] E8\n\n[green]Coxeter Diagram:\n[white]\no---o---o---o---o---o---o\n                |\n                o\n",
             stopped := false } ∧
    inputDone ft8 Key.Enter "8"
        { mode := "asymptotic", currentN := 3, output := "shown", stopped := false } =
      some { mode := "asymptotic", currentN := 8,
             output := "[cyan]Asymptotic Bounds (Kabatiansky–Levenshtein)\n\n[green]Lower Bound:[white] 3.160e+00\n[red]Upper Bound:[white] 9.241e+00\n\n[yellow]These bounds hold for sufficiently large dimensions.",
             stopped := false } := by
  refine ⟨by decide, ?_, ?_⟩
  · obtain ⟨t, ht, h⟩ := C5_valid_submission ft8 "8" 8 initSession (by decide) (by decide)
    have e : t = "[green]Dimension:[white] 8\n[green]Exact Kissing Number:[white] 240\n[green]Root System:[white] E8\n\n[green]Coxeter Diagram:\n[white]\no---o---o---o---o---o---o\n                |\n                o\n" :=
      Option.some.inj (ht.symm.trans rfl)
    rw [h, e]
    rfl
  · obtain ⟨t, _, h⟩ := C5_valid_submission ft8 "8" 8
      { mode := "asymptotic", currentN := 3, output := "shown", stopped := false }
      (by decide) (by decide)
    rw [h]
    rfl

/-! ## Mode keys -/

/-- C6: after a submission of a text that parses to n ≥ 1, followed by any
events that are not accepted submissions, the session still holds n, and a
mode key then sets the mode (exact for e and E, asymptotic for a and A),
leaves currentN equal to n and shows the text of the renderer of that mode
for n, with no new submission. -/
theorem C6_mode_toggle (ft : FloatText) (text : String) (n : Int) (st : Session)
    (hp : atoi text = some n) (hn : 1 ≤ n)
    (evs : List Event) (hevs : ∀ ev ∈ evs, isValidSubmit ev = false)
    (r : Char) (hr : r ∈ ['e', 'E', 'a', 'A']) :
    ∃ t st2, renderExact n = some t ∧
      run ft (Event.done Key.Enter text :: evs) st = some st2 ∧
      st2.currentN = n ∧
      inputCapture ft r st2 =
        some { mode := if r = 'e' ∨ r = 'E' then "exact" else "asymptotic",
               currentN := n,
               output := if r = 'e' ∨ r = 'E' then t else renderAsymptotic ft n,
               stopped := st2.stopped } := by
  obtain ⟨t, ht, h1⟩ := inputDone_valid ft text n st hp hn
  obtain ⟨st2, h2, hn2⟩ := run_keeps_currentN ft evs
    { mode := st.mode, currentN := n,
      output := if st.mode = "exact" then t else renderAsymptotic ft n,
      stopped := st.stopped } hevs
  obtain ⟨t2, ht2, hc⟩ := inputCapture_mode ft r st2 hr
  have hn2 : st2.currentN = n := hn2
  rw [hn2] at ht2 hc
  have e : t2 = t := Option.some.inj (ht2.symm.trans ht)
  rw [e] at hc
  exact ⟨t, st2, ht, by simp [run, step, h1, h2], hn2, hc⟩

/-- C6 at the text "8" from the initial session: the key a shows the
asymptotic report for dimension 8, and a following key e shows the exact
report with the value 240. -/
theorem C6_mode_toggle_witness :
    atoi "8" = some 8 ∧
    run ft8 [Event.done Key.Enter "8"] initSession =
      some { mode := "exact", currentN := 8,
             output := "[green]Dimension:[white] 8\n[green]Exact Kissing Number:[white] 240\n[green]Root System:[white] E8\n\n[green]Coxeter Diagram:\n[white]\no---o---o---o---o---o---o\n                |\n                o\n",
             stopped := false } ∧
    run ft8 [Event.done Key.Enter "8", Event.rune 'a'] initSession =
      some { mode := "asymptotic", currentN := 8,
             output := "[cyan]Asymptotic Bounds (Kabatiansky–Levenshtein)\n\n[green]Lower Bound:[white] 3.160e+00\n[red]Upper Bound:[white] 9.241e+00\n\n[yellow]These bounds hold for sufficiently large dimensions.",
             stopped := false } ∧
    inputCapture ft8 'e'
        { mode := "asymptotic", currentN := 8,
          output := "[cyan]Asymptotic Bounds (Kabatiansky–Levenshtein)\n\n[green]Lower Bound:[white] 3.160e+00\n[red]Upper Bound:[white] 9.241e+00\n\n[yellow]These bounds hold for sufficiently large dimensions.",
          stopped := false } =
      some { mode := "exact", currentN := 8,
             output := "[green]Dimension:[white] 8\n[green]Exact Kissing Number:[white] 240\n[green]Root System:[white] E8\n\n[green]Coxeter Diagram:\n[white]\no---o---o---o---o---o---o\n                |\n                o\n",
             stopped := false } := by
  refine ⟨by decide, rfl, rfl, ?_⟩
  obtain ⟨t, st2, ht, hrun, _, hc⟩ :=
    C6_mode_toggle ft8 "8" 8 initSession (by decide) (by decide)
      [Event.rune 'a'] (by decide) 'e' (by decide)
  have e2 : st2 =
      { mode := "asymptotic", currentN := 8,
        output := "[cyan]Asymptotic Bounds (Kabatiansky–Levenshtein)\n\n[green]Lower Bound:[white] 3.160e+00\n[red]Upper Bound:[white] 9.241e+00\n\n[yellow]These bounds hold for sufficiently large dimensions.",
        stopped := false } :=
    Option.some.inj (hrun.symm.trans rfl)
  have e : t = "[green]Dimension:[white] 8\n[green]Exact Kissing Number:[white] 240\n[green]Root System:[white] E8\n\n[green]Coxeter Diagram:\n[white]\no---o---o---o---o---o---o\n                |\n                o\n" :=
    Option.some.inj (ht.symm.trans rfl)
  subst e2
  rw [hc, e]
  rfl

/-- C8, as the code has it: a non-positive dimension is rejected by the submit
handler, not by the renderers. For every submitted text that parses to d < 1
and every session (so every mode) the handler shows the text Invalid dimension
and keeps mode and currentN, and that text is no text of renderExact and no
text of renderAsymptotic. -/
theorem C8_rejection_in_submit (ft : FloatText) (text : String) (d : Int) (st : Session)
    (hp : atoi text = some d) (hd : d < 1) :
    inputDone ft Key.Enter text st =
      some { mode := st.mode, currentN := st.currentN,
             output := "[red]Invalid dimension", stopped := st.stopped } ∧
    (∀ n : Int, renderExact n ≠ some "[red]Invalid dimension") ∧
    (∀ n : Int, renderAsymptotic ft n ≠ "[red]Invalid dimension") :=
  ⟨inputDone_invalid ft text st (Or.inr ⟨d, hp, hd⟩),
   renderExact_ne_invalid, renderAsymptotic_ne_invalid ft⟩

/-- C8 as amended, at the texts "0" and "-3" in both modes. -/
theorem C8_rejection_in_submit_witness :
    atoi "0" = some 0 ∧ atoi "-3" = some (-3) ∧
    inputDone ft8 Key.Enter "0" initSession =
      some { mode := "exact", currentN := 0,
             output := "[red]Invalid dimension", stopped := false } ∧
    inputDone ft8 Key.Enter "-3"
        { mode := "asymptotic", currentN := 8, output := "shown", stopped := false } =
      some { mode := "asymptotic", currentN := 8,
             output := "[red]Invalid dimension", stopped := false } :=
  ⟨by decide, by decide,
   (C8_rejection_in_submit ft8 "0" 0 initSession (by decide) (by decide)).1,
   (C8_rejection_in_submit ft8 "-3" (-3)
      { mode := "asymptotic", currentN := 8, output := "shown", stopped := false }
      (by decide) (by decide)).1⟩

/-- C8 as stated fails: for d = 0 and d = -3 renderExact returns the no-data
report, and update dispatches to it for currentN = 0 in exact mode and to the
asymptotic report in asymptotic mode; nothing is rejected. -/
theorem C8_query_accepts_nonpositive :
    renderExact 0 = some "[yellow]Dimension 0\nNo finite bounds stored." ∧
    renderExact (-3) = some "[yellow]Dimension -3\nNo finite bounds stored." ∧
    update ft8 { mode := "exact", currentN := 0, output := "", stopped := false } =
      some { mode := "exact", currentN := 0, output := noDataText 0, stopped := false } ∧
    update ft8 { mode := "asymptotic", currentN := 0, output := "", stopped := false } =
      some { mode := "asymptotic", currentN := 0,
             output := renderAsymptotic ft8 0, stopped := false } :=
  ⟨rfl, rfl, rfl, rfl⟩

/-- C9 fails on the code: in the initial session (currentN = 0, nothing shown)
a mode key calls update, which renders dimension 0: the keys e and E show the
no-data report for 0 and the keys a and A the asymptotic report for 0, so the
displayed text changes. -/
theorem C9_initial_mode_key_renders (ft : FloatText) :
    initSession.currentN = 0 ∧ initSession.output = "" ∧
    (∀ r ∈ ['e', 'E'], inputCapture ft r initSession =
      some { mode := "exact", currentN := 0,
             output := "[yellow]Dimension 0\nNo finite bounds stored.",
             stopped := false }) ∧
    (∀ r ∈ ['a', 'A'], inputCapture ft r initSession =
      some { mode := "asymptotic", currentN := 0,
             output := renderAsymptotic ft 0, stopped := false }) ∧
    renderAsymptotic ft 0 ≠ initSession.output := by
  refine ⟨rfl, rfl, ?_, ?_, ?_⟩
  · intro r hr
    simp only [List.mem_cons, List.mem_singleton, List.not_mem_nil, or_false] at hr
    rcases hr with rfl | rfl <;> rfl
  · intro r hr
    simp only [List.mem_cons, List.mem_singleton, List.not_mem_nil, or_false] at hr
    rcases hr with rfl | rfl <;> rfl
  · intro h
    have h2 := renderAsymptotic_head ft 0
    rw [h] at h2
    exact absurd h2 (by decide)

end KissingNumbers
